import Mathlib

/-!
Verification development for the `ytls` repository (YouTube live-stream
piping). The definitions below are a shallow embedding of the three core
components:

* `M3U8Parser` (streamed playlist line splitter/classifier),
* `BufferedStreamLoader` (redirect-following buffered fetcher with retries),
* `YouTubeLiveStream.loadSegments` (the refresh/delivery controller of
  `src/lib/YouTubeLiveStream.ts`, the variant whose constructor takes a
  `resolveFunc`).

Text is modelled at the character level (`List Char`); JavaScript strings
and Buffers both appear as `Chars`. Asynchronous execution is modelled
cooperatively: the only suspension points are the `await`ed network calls,
and a counter of completed awaits is threaded through the controller so
that a concurrent teardown (clearing of the load interval) can be modelled
as becoming visible from a given suspension onwards.
-/

namespace Ytls

/-- Character strings as the code sees text; also used for response buffers. -/
abbrev Chars := List Char

/-- Characters accepted inside a directive tag name: the `[A-Z0-9-]` class of
the regex `^#(EXT[A-Z0-9-]+)(?::(.*))?` in `M3U8Parser.parseLine`. -/
def isTagChar (c : Char) : Bool :=
  decide (('A' ≤ c ∧ c ≤ 'Z') ∨ ('0' ≤ c ∧ c ≤ '9') ∨ c = '-')

/-- JavaScript line terminators, the characters the regex metachar `.` does
not match (`\n`, `\r`, U+2028, U+2029). -/
def isLineTerm (c : Char) : Bool :=
  decide (c = '\n' ∨ c = '\r' ∨ c.toNat = 0x2028 ∨ c.toNat = 0x2029)

/-- JavaScript `String.prototype.trim` white space (ECMA-262 WhiteSpace and
LineTerminator code points). -/
def isJsWs (c : Char) : Bool :=
  decide (c = ' ' ∨ c = '\t' ∨ c = '\n' ∨ c = '\r' ∨ c.toNat = 0xb ∨
    c.toNat = 0xc ∨ c.toNat = 0xa0 ∨ c.toNat = 0x1680 ∨
    (0x2000 ≤ c.toNat ∧ c.toNat ≤ 0x200a) ∨ c.toNat = 0x2028 ∨
    c.toNat = 0x2029 ∨ c.toNat = 0x202f ∨ c.toNat = 0x205f ∨
    c.toNat = 0x3000 ∨ c.toNat = 0xfeff)

/-- `line.trim()`: strip leading and trailing JavaScript white space. -/
def jsTrim (l : Chars) : Chars :=
  ((l.dropWhile isJsWs).reverse.dropWhile isJsWs).reverse

/-- Events emitted by `M3U8Parser`: `tag`, `item`, and the terminal `end`. -/
inductive MEvent where
  | tag (name : Chars) (payload : Option Chars)
  | item (s : Chars)
  | endEv
  deriving DecidableEq, Repr

/-- Result of the optional payload part of the directive regex, given the
characters following the tag-name run. The group `(?::(.*))?` matches only
when a `:` immediately follows the greedy `[A-Z0-9-]+` run (`:` is not in
the class, so no backtracking can shorten the run); the capture `(.*)` is
everything up to the first line terminator. `none` means the whole optional
group did not participate. -/
def payloadAfter (after : Chars) : Option Chars :=
  match after with
  | ':' :: p => some (p.takeWhile (fun c => !isLineTerm c))
  | _ => none

/-- The regex match `line.match(/^#(EXT[A-Z0-9-]+)(?::(.*))?/)` of
`M3U8Parser.parseLine`: returns `(group1, group2)` on success. Group 1 is
`EXT` followed by a non-empty greedy run of `[A-Z0-9-]`; group 2 is the
optional payload capture. The regex is unanchored at the right, so trailing
characters after the match are ignored. -/
def tagMatch (l : Chars) : Option (Chars × Option Chars) :=
  match l with
  | '#' :: 'E' :: 'X' :: 'T' :: rest =>
    match rest.takeWhile isTagChar with
    | [] => none
    | run =>
      some ('E' :: 'X' :: 'T' :: run, payloadAfter (rest.drop run.length))
  | _ => none

/-- JavaScript `x || null` applied to the payload capture at the emit site
(`this.emit('tag', tag[1], tag[2] || null)`): an absent or empty capture
becomes `null`. -/
def jsOrNull (p : Option Chars) : Option Chars :=
  match p with
  | none => none
  | some [] => none
  | some q => some q

/-- `M3U8Parser.parseLine`: classify one complete line into at most one
event. Directive lines emit `tag`; non-empty lines not starting with `#`
emit `item` carrying the trimmed line; everything else emits nothing. -/
def classifyLine (l : Chars) : Option MEvent :=
  match tagMatch l with
  | some (name, p) => some (.tag name (jsOrNull p))
  | none =>
    if l.head? = some '#' then none
    else if jsTrim l = [] then none
    else some (.item (jsTrim l))

/-- `chunk.toString('utf8').split('\n')`: split on newline characters,
keeping empty fragments; always returns at least one fragment. -/
def splitNL : Chars → List Chars
  | [] => [[]]
  | c :: cs =>
    if c = '\n' then [] :: splitNL cs
    else
      match splitNL cs with
      | [] => [[c]]
      | h :: t => (c :: h) :: t

/-- Parser state: the pending partial last line (`lastLine`) plus the ordered
list of events emitted so far. -/
structure PState where
  pending : Chars
  events : List MEvent
  deriving DecidableEq, Repr

/-- The parser's initial state: `lastLine = ''`, nothing emitted. -/
def initP : PState := ⟨[], []⟩

/-- The `lines.forEach` body of `M3U8Parser._write`: classify every fragment
except the last, accumulate the events, and return the last fragment (the
new pending partial line). -/
def classifyAll (ev : List MEvent) : List Chars → List MEvent × Chars
  | [] => (ev, [])
  | [l] => (ev, l)
  | l :: ls => classifyAll (ev ++ (classifyLine l).toList) ls

/-- `if (this.lastLine) lines[0] = this.lastLine + lines[0]`: prefix the
pending partial line onto the first fragment. -/
def consPend (p : Chars) : List Chars → List Chars
  | [] => [p]
  | h :: t => (p ++ h) :: t

/-- `M3U8Parser._write`: split the incoming chunk on newlines, prefix any
pending partial line, classify all complete lines and store the last
fragment as the new pending partial line. -/
def feedP (st : PState) (chunk : Chars) : PState :=
  let lines := splitNL chunk
  let lines := if st.pending = [] then lines else consPend st.pending lines
  let r := classifyAll st.events lines
  ⟨r.2, r.1⟩

/-- One character of parser work: a newline flushes and classifies the
pending line, any other character extends it. Used to prove that `feedP`
is insensitive to how the document is chopped into chunks. -/
def stepP (st : PState) (c : Char) : PState :=
  if c = '\n' then ⟨[], st.events ++ (classifyLine st.pending).toList⟩
  else ⟨st.pending ++ [c], st.events⟩

/-- The parser's `finish` handler: classify the pending partial line as a
final complete line, then emit the terminal `end` event. -/
def finishP (st : PState) : PState :=
  ⟨st.pending, st.events ++ (classifyLine st.pending).toList ++ [MEvent.endEv]⟩

/-- Feed a list of chunks in order (successive `_write` calls). -/
def feedAll (st : PState) (chunks : List Chars) : PState :=
  chunks.foldl feedP st

/-- The ordered chunk references of a playlist document: all `item` events
produced by feeding the whole document and finishing. -/
def itemsOfDoc (doc : Chars) : List Chars :=
  ((finishP (feedP initP doc)).events).filterMap fun e =>
    match e with
    | .item s => some s
    | _ => none

lemma splitNL_shape (cs : Chars) : ∃ h t, splitNL cs = h :: t := by
  cases cs with
  | nil => exact ⟨[], [], rfl⟩
  | cons c cs' =>
    by_cases hc : c = '\n'
    · exact ⟨[], splitNL cs', by simp [splitNL, hc]⟩
    · rcases hs : splitNL cs' with _ | ⟨h, t⟩
      · exact ⟨[c], [], by simp [splitNL, hc, hs]⟩
      · exact ⟨c :: h, t, by simp [splitNL, hc, hs]⟩

lemma classifyAll_cons (ev : List MEvent) (x : Chars) (L : List Chars)
    (h : L ≠ []) :
    classifyAll ev (x :: L) = classifyAll (ev ++ (classifyLine x).toList) L := by
  cases L with
  | nil => exact absurd rfl h
  | cons b bs => rfl

lemma runFold (cs : Chars) : ∀ (p : Chars) (ev : List MEvent),
    (⟨(classifyAll ev (consPend p (splitNL cs))).2,
      (classifyAll ev (consPend p (splitNL cs))).1⟩ : PState) =
      cs.foldl stepP ⟨p, ev⟩ := by
  induction cs with
  | nil =>
    intro p ev
    simp [splitNL, consPend, classifyAll]
  | cons c cs ih =>
    intro p ev
    obtain ⟨h, t, hs⟩ := splitNL_shape cs
    by_cases hc : c = '\n'
    · subst hc
      have h1 : splitNL ('\n' :: cs) = [] :: splitNL cs := by simp [splitNL]
      have h2 : consPend p ([] :: splitNL cs) = p :: splitNL cs := by
        simp [consPend]
      rw [h1, h2, hs, classifyAll_cons _ _ _ (by simp)]
      have h3 : (h :: t) = consPend [] (splitNL cs) := by
        rw [hs]; simp [consPend]
      rw [h3, ih [] (ev ++ (classifyLine p).toList)]
      simp [stepP]
    · have h1 : splitNL (c :: cs) = (c :: h) :: t := by
        simp [splitNL, hc, hs]
      have h2 : consPend p ((c :: h) :: t) = ((p ++ [c]) ++ h) :: t := by
        simp [consPend]
      have h3 : ((p ++ [c]) ++ h) :: t = consPend (p ++ [c]) (splitNL cs) := by
        rw [hs]; simp [consPend]
      rw [h1, h2, h3, ih (p ++ [c]) ev]
      simp [stepP, hc]

/-- `_write` is equivalent to processing the chunk one character at a time:
the faithful split-and-prefix implementation equals a left fold of `stepP`. -/
theorem feedP_eq_foldl (st : PState) (chunk : Chars) :
    feedP st chunk = chunk.foldl stepP st := by
  obtain ⟨p, ev⟩ := st
  by_cases hp : p = []
  · subst hp
    obtain ⟨h, t, hs⟩ := splitNL_shape chunk
    have hcp : consPend [] (splitNL chunk) = splitNL chunk := by
      rw [hs]; simp [consPend]
    have hmain := runFold chunk [] ev
    rw [hcp] at hmain
    simpa [feedP, hs] using hmain
  · have hmain := runFold chunk p ev
    simpa [feedP, hp] using hmain

/-- Feeding two successive chunks equals feeding their concatenation. -/
theorem feedP_append (st : PState) (a b : Chars) :
    feedP (feedP st a) b = feedP st (a ++ b) := by
  simp [feedP_eq_foldl, List.foldl_append]

/-- Feeding any chunk list equals feeding the concatenated document once. -/
theorem feedAll_eq_feed_join (chunks : List Chars) :
    ∀ st : PState, feedAll st chunks = feedP st chunks.flatten := by
  induction chunks with
  | nil =>
    intro st
    simp [feedAll, feedP_eq_foldl]
  | cons c cs ih =>
    intro st
    have h1 : feedAll st (c :: cs) = feedAll (feedP st c) cs := by
      simp [feedAll]
    rw [h1, ih (feedP st c), feedP_append]
    simp [feedAll]

lemma tagMatch_ne_head (c : Char) (t : Chars) (hc : c ≠ '#') :
    tagMatch (c :: t) = none := by
  unfold tagMatch
  split
  · next heq => injection heq with h1 _; exact absurd h1 hc
  · rfl

lemma jsTrim_nil_all {l : Chars} (h : jsTrim l = []) :
    ∀ c ∈ l, isJsWs c = true := by
  unfold jsTrim at h
  rw [List.reverse_eq_nil_iff, List.dropWhile_eq_nil_iff] at h
  intro c hc
  have h2 : ∀ x ∈ l.dropWhile isJsWs, isJsWs x := by
    intro x hx
    exact h x (by simpa using hx)
  have h3 := List.takeWhile_append_dropWhile (p := isJsWs) (l := l)
  rw [← h3] at hc
  rcases List.mem_append.mp hc with h4 | h4
  · exact List.mem_takeWhile_imp h4
  · exact h2 c h4

/-- C2: for every playlist document and every way of splitting it into
successive feed calls (including splits that fall in the middle of a line),
feeding the chunks and then finishing yields exactly the same ordered event
sequence as feeding the whole document at once; and the document
`"#EXTM3U\nitem1\n#EXT-X-X:5\nitem2"` followed by `finish()` yields
tag(EXTM3U, null), item(item1), tag(EXT-X-X, 5), item(item2), end — also
when fed as `"#EXTM3U\nite"` then `"m1\n#EXT-X-X:5\nitem2"`. -/
theorem C2_feed_split_invariant :
    (∀ chunks : List Chars,
      (finishP (feedAll initP chunks)).events =
        (finishP (feedP initP chunks.flatten)).events)
    ∧ (finishP (feedP initP ("#EXTM3U\nitem1\n#EXT-X-X:5\nitem2").data)).events =
        [MEvent.tag "EXTM3U".data none, MEvent.item "item1".data,
         MEvent.tag "EXT-X-X".data (some "5".data), MEvent.item "item2".data,
         MEvent.endEv]
    ∧ (finishP (feedAll initP
          [("#EXTM3U\nite").data, ("m1\n#EXT-X-X:5\nitem2").data])).events =
        [MEvent.tag "EXTM3U".data none, MEvent.item "item1".data,
         MEvent.tag "EXT-X-X".data (some "5".data), MEvent.item "item2".data,
         MEvent.endEv] := by
  refine ⟨fun chunks => ?_, by decide, by decide⟩
  rw [feedAll_eq_feed_join]

/-- C9: per complete line, a line matching the directive regex emits a tag
event with the tag name and the optional payload (`null` when the capture is
absent or empty, per `tag[2] || null`); a line that is not a directive, does
not start with `#` and is non-blank emits an item event carrying the trimmed
line; comment lines (starting with `#` without matching the directive
pattern) and blank lines emit nothing. -/
theorem C9_line_classification :
    (∀ l n p, tagMatch l = some (n, p) →
      classifyLine l = some (.tag n (jsOrNull p)))
    ∧ (∀ l, tagMatch l = none → l.head? ≠ some '#' → jsTrim l ≠ [] →
      classifyLine l = some (.item (jsTrim l)))
    ∧ (∀ l, l.head? = some '#' → tagMatch l = none → classifyLine l = none)
    ∧ (∀ l, jsTrim l = [] → classifyLine l = none) := by
  refine ⟨?_, ?_, ?_, ?_⟩
  · intro l n p h
    simp [classifyLine, h]
  · intro l h h1 h2
    simp [classifyLine, h, h1, h2]
  · intro l h1 h2
    simp [classifyLine, h2, h1]
  · intro l h
    have hws := jsTrim_nil_all h
    have hhead : ¬ l.head? = some '#' := by
      cases l with
      | nil => simp
      | cons c t =>
        have hc := hws c (by simp)
        intro hcon
        simp only [List.head?_cons, Option.some.injEq] at hcon
        subst hcon
        simp [isJsWs] at hc
    have htag : tagMatch l = none := by
      cases l with
      | nil => rfl
      | cons c t =>
        refine tagMatch_ne_head c t ?_
        intro he
        subst he
        exact hhead (by simp)
    simp [classifyLine, htag, hhead, h]

/-- Witness for C9 at concrete lines of each of the four kinds. -/
theorem C9_line_classification_w :
    classifyLine ("#EXT-X-X:5").data =
      some (MEvent.tag "EXT-X-X".data (jsOrNull (some "5".data)))
    ∧ classifyLine "chunk1".data = some (MEvent.item (jsTrim "chunk1".data))
    ∧ classifyLine ("#comment").data = none
    ∧ classifyLine "  ".data = none :=
  ⟨C9_line_classification.1 _ _ _ (by decide),
   C9_line_classification.2.1 _ (by decide) (by decide) (by decide),
   C9_line_classification.2.2.1 _ (by decide) (by decide),
   C9_line_classification.2.2.2 _ (by decide)⟩

/-- A URL, as the untyped string the code passes around. -/
abbrev Url := Chars

/-- Errors of the fetch layer (`BufferedStreamLoader`), per the §7 taxonomy.
`exhausted` is the error thrown by `downloadTries` (`Could not load buffered
stream after several tries: <message>`), carrying the last attempt's error. -/
inductive DlErr where
  | invalidUrl
  | tooManyRedirects
  | badStatus (code : Nat)
  | transportError
  | exhausted (last : DlErr)
  deriving DecidableEq, Repr

/-- Characters legal in a URL scheme after its leading letter. -/
def isSchemeChar (c : Char) : Bool :=
  c.isAlphanum || decide (c = '+' ∨ c = '-' ∨ c = '.')

/-- `require('url').parse(url).protocol`: the lowercased scheme including the
trailing `:` when the string starts with `<letter><scheme chars>:`, and
`none` (the parser's `null`) otherwise. -/
def schemeOf (u : Url) : Option Chars :=
  match u with
  | [] => none
  | c :: rest =>
    if c.isAlpha then
      match rest.drop ((rest.takeWhile isSchemeChar).length) with
      | ':' :: _ =>
        some (((c :: rest.takeWhile isSchemeChar).map Char.toLower) ++ [':'])
      | _ => none
    else none

/-- The one accepted protocol, `'https:'`. -/
def httpsProto : Chars := "https:".data

/-- One HTTP response as `downloadBuffer` observes it: a redirect status
(301/302/303/307) together with its `Location` header, any other status with
its fully accumulated body, or a network-level error of the request or the
body read (the `req.on('error')` / `res.on('error')` paths). -/
inductive Resp where
  | redirect (location : Url)
  | status (code : Nat) (body : Chars)
  | failure
  deriving DecidableEq, Repr

instance {ε α : Type} [DecidableEq ε] [DecidableEq α] :
    DecidableEq (Except ε α)
  | .ok x, .ok y =>
    match decEq x y with
    | isTrue h => isTrue (h ▸ rfl)
    | isFalse h => isFalse fun hc => h (Except.ok.inj hc)
  | .error x, .error y =>
    match decEq x y with
    | isTrue h => isTrue (h ▸ rfl)
    | isFalse h => isFalse fun hc => h (Except.error.inj hc)
  | .ok _, .error _ => isFalse fun hc => Except.noConfusion hc
  | .error _, .ok _ => isFalse fun hc => Except.noConfusion hc

/-- Outcome of a `downloadBuffer` call: the value the promise settles with,
plus the ordered list of HTTPS requests actually issued. -/
structure NetResult where
  result : Except DlErr Chars
  requests : List Url
  deriving DecidableEq, Repr

/-- `BufferedStreamLoader.downloadBuffer(url, redirectCount, maxRedirects)`.
`maxRedirects` is always its default 3: the recursive call on a redirect
passes only `(location, redirectCount + 1)`, so the bound check is
`redirectCount >= 3 - 1`.

The scheme check: the code calls `reject(new Error('Invalid URL'))` without
returning and then calls `https.get(parsed)` unconditionally. For a URL with
an explicit non-`https` scheme, Node's `https.get` throws
`ERR_INVALID_PROTOCOL` synchronously before opening any connection, and the
`Promise` executor routes that throw into the already-settled promise where
it is discarded (`finished` is already true) — so the observable outcome is
the `InvalidUrl` rejection with no request issued. For a scheme-less URL
(`url.parse(...).protocol === null`) `https.get` instead proceeds against
Node's default host, so a request is still issued (recorded here under the
original URL string) although the settled result remains `InvalidUrl`.

The `fuel` argument only makes the recursion structural; from the public
entry point (`download`: fuel 3, redirectCount 0) the redirect-count guard
always fires strictly before fuel could reach 0, so the fuel-exhausted
branch is unreachable from `download`. -/
def downloadBufferF (server : Url → Resp) : Nat → Url → Nat → NetResult
  | 0, url, _ => ⟨.error .tooManyRedirects, [url]⟩
  | Nat.succ fuel, url, redirectCount =>
    match schemeOf url with
    | none => ⟨.error .invalidUrl, [url]⟩
    | some s =>
      if s = httpsProto then
        match server url with
        | .redirect loc =>
          if redirectCount ≥ 3 - 1 then ⟨.error .tooManyRedirects, [url]⟩
          else
            let r := downloadBufferF server fuel loc (redirectCount + 1)
            ⟨r.result, url :: r.requests⟩
        | .status code body =>
          if code < 200 ∨ 300 ≤ code then ⟨.error (.badStatus code), [url]⟩
          else ⟨.ok body, [url]⟩
        | .failure => ⟨.error .transportError, [url]⟩
      else ⟨.error .invalidUrl, []⟩

/-- `BufferedStreamLoader.download(url)`: one buffered fetch, i.e.
`downloadBuffer(url)` with `redirectCount = 0` and `maxRedirects = 3` (the
wrapping of the buffer into a Duplex stream carries no logic). -/
def download (server : Url → Resp) (url : Url) : NetResult :=
  downloadBufferF server 3 url 0

/-- `BufferedStreamLoader.downloadTries(url, tryCount, warningCallback)`.
`att i` is the outcome of the `i`-th `download` invocation (0-based; each
retry hits the network again, which the attempt index models). Returns the
final outcome and the number of warning-callback invocations. The code's
`tryCount <= 1` test appears as the `0` and `1` cases of the match. -/
def downloadTries (att : Nat → Except DlErr Chars) :
    Nat → Nat → Except DlErr Chars × Nat
  | 0, idx =>
    match att idx with
    | .ok b => (.ok b, 0)
    | .error e => (.error (.exhausted e), 1)
  | 1, idx =>
    match att idx with
    | .ok b => (.ok b, 0)
    | .error e => (.error (.exhausted e), 1)
  | t + 2, idx =>
    match att idx with
    | .ok b => (.ok b, 0)
    | .error _ =>
      let r := downloadTries att (t + 1) (idx + 1)
      (r.1, r.2 + 1)

/-- C3: against a fetch failing on attempts 0 and 1 and succeeding on
attempt 2, `downloadTries` with `tryCount = 3` ultimately succeeds with the
third attempt's buffer and invokes the warning callback exactly twice (once
per failed attempt); with `tryCount = 2` against consecutive failures it
fails with the exhausted-retries error carrying the last (second) attempt's
error, again with exactly two warnings. Attempts are consulted singly at
consecutive indices, decrementing the remaining try count; the absence of
backoff is a timing property with no counterpart in this embedding. -/
theorem C3_retry_behaviour (att : Nat → Except DlErr Chars) (b : Chars)
    (e0 e1 : DlErr) :
    (att 0 = .error e0 → att 1 = .error e1 → att 2 = .ok b →
      downloadTries att 3 0 = (.ok b, 2))
    ∧ (att 0 = .error e0 → att 1 = .error e1 →
      downloadTries att 2 0 = (.error (.exhausted e1), 2)) := by
  constructor
  · intro h0 h1 h2
    simp [downloadTries, h0, h1, h2]
  · intro h0 h1
    simp [downloadTries, h0, h1]

/-- A fetch that fails twice, then succeeds. -/
def attTwiceFail (i : Nat) : Except DlErr Chars :=
  if i < 2 then .error .transportError else .ok "B".data

/-- Witness for C3 at a concrete attempt sequence. -/
theorem C3_retry_behaviour_w :
    downloadTries attTwiceFail 3 0 = (.ok "B".data, 2)
    ∧ downloadTries attTwiceFail 2 0 =
      (.error (.exhausted .transportError), 2) :=
  ⟨(C3_retry_behaviour attTwiceFail "B".data .transportError
      .transportError).1 (by decide) (by decide) (by decide),
   (C3_retry_behaviour attTwiceFail "B".data .transportError
      .transportError).2 (by decide) (by decide)⟩

/-- A server answering a chain of three redirects, then a 200. -/
def cexServer : Url → Resp := fun u =>
  if u = "https://a".data then .redirect "https://b".data
  else if u = "https://b".data then .redirect "https://c".data
  else if u = "https://c".data then .redirect "https://d".data
  else .status 200 "BODY".data

/-- Counterexample to C4 as stated: a chain of exactly three redirects
eventually reaching a 2xx does NOT succeed — the fetch rejects with
`TooManyRedirects` upon the third redirect response and never requests the
final URL. -/
theorem C4_counterexample :
    (download cexServer "https://a".data).result ≠ .ok "BODY".data
    ∧ download cexServer "https://a".data =
      ⟨.error .tooManyRedirects,
       ["https://a".data, "https://b".data, "https://c".data]⟩ := by
  constructor
  · decide
  · decide

/-- C4 (amended): the fetcher follows `Location` recursively but follows at
most 2 redirects: with `maxRedirects = 3` the guard
`redirectCount >= maxRedirects - 1` fires on the third consecutive redirect
response. A chain of two redirects reaching a 2xx succeeds; a third redirect
response fails with `TooManyRedirects`. -/
theorem C4_redirect_bound (server : Url → Resp) (u0 u1 u2 loc : Url)
    (code : Nat) (body : Chars)
    (h0 : schemeOf u0 = some httpsProto) (h1 : schemeOf u1 = some httpsProto)
    (h2 : schemeOf u2 = some httpsProto)
    (hr0 : server u0 = .redirect u1) (hr1 : server u1 = .redirect u2) :
    (server u2 = .status code body → 200 ≤ code → code < 300 →
      download server u0 = ⟨.ok body, [u0, u1, u2]⟩)
    ∧ (server u2 = .redirect loc →
      download server u0 = ⟨.error .tooManyRedirects, [u0, u1, u2]⟩) := by
  constructor
  · intro hs hge hlt
    have hcode : ¬ (code < 200 ∨ 300 ≤ code) := by omega
    simp [download, downloadBufferF, h0, h1, h2, hr0, hr1, hs, hcode]
  · intro hs
    simp [download, downloadBufferF, h0, h1, h2, hr0, hr1, hs]

/-- A server answering a chain of two redirects, then a 200. -/
def okServer : Url → Resp := fun u =>
  if u = "https://a".data then .redirect "https://b".data
  else if u = "https://b".data then .redirect "https://c".data
  else .status 200 "BODY".data

/-- Witness for C4 (amended): both the two-redirect success and the
three-redirect failure at concrete servers. -/
theorem C4_redirect_bound_w :
    download okServer "https://a".data =
      ⟨.ok "BODY".data,
       ["https://a".data, "https://b".data, "https://c".data]⟩
    ∧ download cexServer "https://a".data =
      ⟨.error .tooManyRedirects,
       ["https://a".data, "https://b".data, "https://c".data]⟩ :=
  ⟨(C4_redirect_bound okServer "https://a".data "https://b".data
      "https://c".data [] 200 "BODY".data (by decide) (by decide) (by decide)
      (by decide) (by decide)).1 (by decide) (by decide) (by decide),
   (C4_redirect_bound cexServer "https://a".data "https://b".data
      "https://c".data "https://d".data 0 [] (by decide) (by decide)
      (by decide) (by decide) (by decide)).2 (by decide)⟩

/-- C5: for every URL with an explicit scheme other than `https`, the fetch
fails with `InvalidUrl` and no request is issued: the promise is rejected by
the scheme check, and although the code falls through to `https.get`, Node
throws `ERR_INVALID_PROTOCOL` synchronously for a non-matching explicit
protocol, which the settled promise discards (see `downloadBufferF`). -/
theorem C5_non_https_rejected (server : Url → Resp) (url : Url) (s : Chars)
    (hs : schemeOf url = some s) (hn : s ≠ httpsProto) :
    download server url = ⟨.error .invalidUrl, []⟩ := by
  simp [download, downloadBufferF, hs, hn]

/-- Witness for C5 at the `http` scheme. -/
theorem C5_non_https_rejected_w :
    download (fun _ => Resp.failure) ("http://a").data =
      ⟨.error .invalidUrl, []⟩ :=
  C5_non_https_rejected _ _ "http:".data (by decide) (by decide)

/-- The number `parseInt(ds, 10)` yields on a non-empty digit run. -/
def digitsToNat (ds : Chars) : Nat :=
  ds.foldl (fun n c => n * 10 + (c.toNat - 48)) 0

/-- `/(?:PAT([0-9]+))/g.exec(url)` for a literal pattern `PAT`: scan left to
right for the first position where the pattern is followed by at least one
digit and capture the maximal digit run there (the regex advances one
position on each failed match attempt). -/
def findNumAfter (pat : Chars) : Chars → Option Nat
  | [] => none
  | c :: tl =>
    if pat.isPrefixOf (c :: tl) then
      match ((c :: tl).drop pat.length).takeWhile Char.isDigit with
      | [] => findNumAfter pat tl
      | ds => some (digitsToNat ds)
    else findNumAfter pat tl

/-- `getSequenceID(url)`: the first `sq/<digits>` occurrence, as a number
(`none` models the `'A segment URL had no sequence ID'` throw). -/
def findSq (u : Url) : Option Nat := findNumAfter "sq/".data u

/-- `getExpireTime(url)`: the first `expire/<digits>` occurrence, as a number
(`none` models the `'A playlist URL had no expire time'` throw). -/
def findExpire (u : Url) : Option Nat := findNumAfter "expire/".data u

/-- `new URL(resolvedUrl)` plus `url.searchParams.append('start_seq', s)`,
abstracted to textual query appending: WHATWG URL normalization carries no
logic relevant to the claims, and the resulting string only feeds the fetch
oracle. -/
def appendStartSeq (u : Url) (s : Nat) : Url :=
  u ++ (if u.contains '?' then "&" else "?").data ++ "start_seq=".data ++
    (Nat.repr s).data

/-- `items.slice(-k)` for a natural `k`: the last `min k n` elements, except
that `slice(-0)` is `slice(0)`, the whole array. -/
def jsSliceNeg {α : Type} (l : List α) (k : Nat) : List α :=
  if k = 0 then l else l.drop (l.length - k)

/-- The mutable fields of a `YouTubeLiveStream` instance that `loadSegments`
reads or writes, plus the observable output and warning channels. The code
stores `startSequence` as the string `` `${n}` ``; it is only tested for
truthiness (a decimal numeral is never `''`, so truthiness is presence) and
appended to the query, so it is modelled as the number itself. `output` is
the ordered list of segment buffers piped into the PassThrough. -/
structure CState where
  resolvedUrl : Option Url
  urlExpire : Int
  startSequence : Option Nat
  isLoadingSegments : Bool
  segmentCacheCount : Nat
  output : List Chars
  warnings : Nat
  deriving DecidableEq, Repr

/-- The environment one `loadSegments` run executes against. `resolveFn` is
the caller-supplied resolver (its rejection is an arbitrary error). The two
fetch oracles give the settled outcome of
`BufferedStreamLoader.downloadTries(url, 3, warn)` for a given URL during
this run. Teardown (the `close` handler clearing `loadInterval`) can only
become visible to the run at an `await` boundary; `tdVis c` states that the
interval has been cleared by the time `c` awaits of this run have completed
(`tdVis 0`: torn down before the run reached its first await). -/
structure Env where
  resolveFn : Bool → Except Unit Url
  now : Int
  fetchPlaylist : Url → Except DlErr Chars
  fetchSeg : Url → Except DlErr Chars
  tdVis : Nat → Bool

/-- Errors that abort a refresh cycle (thrown out of `loadSegments`). -/
inductive LoadErr where
  | resolverFailed
  | missingExpiry
  | playlistFetch (e : DlErr)
  | segmentFetch (e : DlErr)
  | missingSequenceId
  deriving DecidableEq, Repr

/-- How the delivery loop ends: all items processed, aborted at the teardown
check, or a segment fetch threw. -/
inductive SegOut where
  | done
  | abortedTd
  | failed (e : LoadErr)
  deriving DecidableEq, Repr

/-- How one `loadSegments` invocation ends: re-entrancy warning, the
step-5 `return` (torn down or no items), mid-loop teardown abort, normal
completion, or a thrown error. -/
inductive LoadResult where
  | warned
  | noNew
  | aborted
  | completed
  | failed (e : LoadErr)
  deriving DecidableEq, Repr

/-- The `for (const item of items)` delivery loop of `loadSegments`: fetch
the segment (an await), re-check `this.loadInterval == null` and abort
clearing the guard if torn down, else pipe the buffer into the output and
continue. `c` is the number of completed awaits when the loop starts; each
log entry records the awaits completed at the moment its fetch was issued. -/
def segLoop (env : Env) :
    List Url → CState → Nat → CState × List (Nat × Url) × SegOut
  | [], st, _ => (st, [], .done)
  | item :: rest, st, c =>
    match env.fetchSeg item with
    | .error e => (st, [(c, item)], .failed (.segmentFetch e))
    | .ok buf =>
      if env.tdVis (c + 1) then
        ({ st with isLoadingSegments := false }, [(c, item)], .abortedTd)
      else
        let r := segLoop env rest { st with output := st.output ++ [buf] } (c + 1)
        (r.1, (c, item) :: r.2.1, r.2.2)

/-- The request URL of a refresh: the resolved playlist URL, with the
`start_seq` query parameter appended when a Sequence Cursor is held. -/
def requestUrl (st : CState) : Url :=
  match st.startSequence with
  | none => st.resolvedUrl.getD []
  | some s => appendStartSeq (st.resolvedUrl.getD []) s

/-- `if (!this.startSequence) items = items.slice(-this.segmentCacheCount)`:
window to the newest `segmentCacheCount` items on a first refresh, keep all
items otherwise. -/
def keptItems (st : CState) (items : List Chars) : List Chars :=
  if st.startSequence.isNone then jsSliceNeg items st.segmentCacheCount
  else items

/-- Steps 3-9 of `loadSegments`, after URL resolution: build the request URL
(appending `start_seq` when a cursor is held), fetch the playlist document
(one await), run it through the parser (one more await for the `end`
promise), take the step-5 early return if torn down or no items, window to
the last `segmentCacheCount` items when no cursor is held, run the delivery
loop, and finally advance the cursor to the last kept item's sequence + 1
and clear the guard. `c` is the number of completed awaits so far. -/
def afterResolve (env : Env) (st : CState) (c : Nat) :
    CState × List (Nat × Url) × LoadResult :=
  let ru := requestUrl st
  match env.fetchPlaylist ru with
  | .error e => (st, [(c, ru)], .failed (.playlistFetch e))
  | .ok doc =>
    let items := itemsOfDoc doc
    if env.tdVis (c + 2) ∨ items.length = 0 then
      ({ st with isLoadingSegments := false }, [(c, ru)], .noNew)
    else
      let kept := keptItems st items
      match segLoop env kept st (c + 2) with
      | (st', lg, .done) =>
        match findSq (kept.getLastD []) with
        | none => (st', (c, ru) :: lg, .failed .missingSequenceId)
        | some q =>
          ({ st' with
              startSequence := some (q + 1),
              isLoadingSegments := false }, (c, ru) :: lg, .completed)
      | (st', lg, .abortedTd) => (st', (c, ru) :: lg, .aborted)
      | (st', lg, .failed e) => (st', (c, ru) :: lg, .failed e)

/-- `loadSegments` of `lib/YouTubeLiveStream.ts`: the re-entrancy guard, then
source freshness (resolve and extract the expiry when no URL is held or the
held one has expired — the resolver await counts as one suspension), then
`afterResolve`. Returns the final state, the ordered fetch log (pairs of
await-count-at-issue and URL, covering the playlist and every segment
fetch), and how the invocation ended. On a `.failed` outcome the state is
what the instance is left with when the exception propagates. -/
def loadSegments (env : Env) (st : CState) :
    CState × List (Nat × Url) × LoadResult :=
  if st.isLoadingSegments then
    ({ st with warnings := st.warnings + 1 }, [], .warned)
  else
    let st1 := { st with isLoadingSegments := true }
    if st1.resolvedUrl = none ∨ env.now > st1.urlExpire then
      match env.resolveFn st1.resolvedUrl.isNone with
      | .error _ => (st1, [], .failed .resolverFailed)
      | .ok u =>
        let st2 := { st1 with resolvedUrl := some u }
        match findExpire u with
        | none => (st2, [], .failed .missingExpiry)
        | some t => afterResolve env { st2 with urlExpire := (t : Int) * 1000 } 1
    else afterResolve env st1 0

/-- The cache-depth handling of the lib constructor:
`const segmentCacheCount: number = arguments[1] || 3` followed by the NaN
and `< 3` checks. `none` is an unspecified argument; `0` is falsy in
JavaScript and is replaced by the default before the check (`NaN`, likewise
falsy, is replaced too and is not representable here, making the
`isNaN` check unreachable for number arguments). The error case is the
thrown `'YTLS: Segment cache count cannot be < 3'`. -/
def ctorCacheDepthLib (arg : Option Int) : Except Unit Int :=
  let c : Int := match arg with
    | none => 3
    | some v => if v = 0 then 3 else v
  if c < 3 then .error () else .ok c

/-- The cache-depth handling of the src variant's constructor
(`constructor(playlistUrl, segmentCacheCount: number = 3, callbacks?)`): a
TypeScript default parameter applies only when the argument is undefined,
after which `segmentCacheCount < 3` throws. -/
def ctorCacheDepthSrc (arg : Option Int) : Except Unit Int :=
  let c : Int := arg.getD 3
  if c < 3 then .error () else .ok c

lemma segLoop_ok (env : Env) (f : Url → Chars)
    (hf : ∀ v, env.fetchSeg v = .ok (f v))
    (htd : ∀ i, env.tdVis i = false) :
    ∀ (items : List Url) (st : CState) (c : Nat),
      segLoop env items st c =
        ({ st with output := st.output ++ items.map f },
          items.enumFrom c, .done) := by
  intro items
  induction items with
  | nil =>
    intro st c
    simp [segLoop, List.enumFrom]
  | cons a rest ih =>
    intro st c
    simp only [segLoop, hf a, htd (c + 1), Bool.false_eq_true, if_false,
      ih _ (c + 1), List.enumFrom]
    simp [List.append_assoc]

lemma jsSliceNeg_length {α : Type} (l : List α) (k : Nat) (hk : 1 ≤ k) :
    (jsSliceNeg l k).length = min k l.length := by
  have h0 : ¬ k = 0 := by omega
  simp only [jsSliceNeg, h0, if_false, List.length_drop]
  omega

lemma loadSegments_guarded (env : Env) (st : CState)
    (h : st.isLoadingSegments = true) :
    loadSegments env st =
      ({ st with warnings := st.warnings + 1 }, [], .warned) := by
  simp [loadSegments, h]

lemma afterResolve_happy (env : Env) (st : CState) (c : Nat) (u : Url)
    (doc : Chars) (f : Url → Chars) (q : Nat)
    (hres : st.resolvedUrl = some u)
    (hcur : st.startSequence = none)
    (htd : ∀ i, env.tdVis i = false)
    (hpl : env.fetchPlaylist u = .ok doc)
    (hf : ∀ v, env.fetchSeg v = .ok (f v))
    (hne : itemsOfDoc doc ≠ [])
    (hq : findSq ((jsSliceNeg (itemsOfDoc doc) st.segmentCacheCount).getLastD [])
        = some q) :
    afterResolve env st c =
      ({ st with
          startSequence := some (q + 1),
          isLoadingSegments := false,
          output := st.output ++
            (jsSliceNeg (itemsOfDoc doc) st.segmentCacheCount).map f },
       (c, u) :: (jsSliceNeg (itemsOfDoc doc) st.segmentCacheCount).enumFrom (c + 2),
       .completed) := by
  have hlen : ¬ (itemsOfDoc doc).length = 0 := by
    simpa [List.length_eq_zero] using hne
  simp only [afterResolve, requestUrl, keptItems, hcur, hres,
    Option.getD_some, hpl, htd (c + 2), Bool.false_eq_true, false_or, hlen,
    if_false, Option.isNone_none, if_true, segLoop_ok env f hf htd, hq]

/-- C1: on a first refresh cycle (no Sequence Cursor and no resolved URL
held), when the parser yields a non-empty item list, no teardown occurs and
every fetch succeeds, `loadSegments` resolves the source, fetches the
playlist, delivers exactly the last `min(cacheDepth, n)` items in document
order (the `slice(-cacheDepth)` window, appended to the output in order, and
the only segment fetches issued), and sets the Sequence Cursor to the
sequence number embedded in the last delivered chunk's URL plus 1. -/
theorem C1_first_refresh_window (env : Env) (st : CState) (u : Url) (t : Nat)
    (doc : Chars) (f : Url → Chars) (q : Nat)
    (hguard : st.isLoadingSegments = false)
    (hcur : st.startSequence = none)
    (hres : st.resolvedUrl = none)
    (hrf : env.resolveFn true = .ok u)
    (hexp : findExpire u = some t)
    (htd : ∀ i, env.tdVis i = false)
    (hpl : env.fetchPlaylist u = .ok doc)
    (hf : ∀ v, env.fetchSeg v = .ok (f v))
    (hne : itemsOfDoc doc ≠ [])
    (hk : 1 ≤ st.segmentCacheCount)
    (hq : findSq ((jsSliceNeg (itemsOfDoc doc) st.segmentCacheCount).getLastD [])
        = some q) :
    loadSegments env st =
      ({ st with
          resolvedUrl := some u,
          urlExpire := (t : Int) * 1000,
          startSequence := some (q + 1),
          isLoadingSegments := false,
          output := st.output ++
            (jsSliceNeg (itemsOfDoc doc) st.segmentCacheCount).map f },
       (1, u) :: (jsSliceNeg (itemsOfDoc doc) st.segmentCacheCount).enumFrom 3,
       .completed)
    ∧ (jsSliceNeg (itemsOfDoc doc) st.segmentCacheCount).length =
        min st.segmentCacheCount (itemsOfDoc doc).length := by
  constructor
  · have h1 : loadSegments env st =
        afterResolve env
          { st with
              isLoadingSegments := true,
              resolvedUrl := some u,
              urlExpire := (t : Int) * 1000 } 1 := by
      simp only [loadSegments, hguard, Bool.false_eq_true, if_false, hres,
        Option.isNone_none, true_or, if_true, hrf, hexp]
    rw [h1, afterResolve_happy env _ 1 u doc f q (by simp) (by simp [hcur])
      htd hpl hf hne (by simpa using hq)]
  · exact jsSliceNeg_length _ _ hk

/-- The playlist document of the C1 witness: ten chunk references. -/
def c1Doc : Chars :=
  ("sq/0\nsq/1\nsq/2\nsq/3\nsq/4\nsq/5\nsq/6\nsq/7\nsq/8\nsq/9").data

/-- The environment of the C1 witness: resolver, playlist and segment
fetches all succeed; no teardown. -/
def c1Env : Env :=
  ⟨fun _ => .ok ("https://h/expire/99/x").data, 0,
   fun _ => .ok c1Doc, fun v => .ok v, fun _ => false⟩

/-- A freshly constructed instance with cacheDepth 3. -/
def c1St : CState := ⟨none, 0, none, false, 3, [], 0⟩

/-- Witness for C1: ten items with cacheDepth 3 deliver exactly the last
three, in ascending sequence order, and the cursor becomes 9 + 1 = 10. -/
theorem C1_first_refresh_window_w :
    loadSegments c1Env c1St =
      ({ c1St with
          resolvedUrl := some ("https://h/expire/99/x").data,
          urlExpire := (99 : Int) * 1000,
          startSequence := some (9 + 1),
          isLoadingSegments := false,
          output := c1St.output ++
            (jsSliceNeg (itemsOfDoc c1Doc) c1St.segmentCacheCount).map id },
       (1, ("https://h/expire/99/x").data) ::
         (jsSliceNeg (itemsOfDoc c1Doc) c1St.segmentCacheCount).enumFrom 3,
       .completed)
    ∧ (jsSliceNeg (itemsOfDoc c1Doc) c1St.segmentCacheCount).length =
        min c1St.segmentCacheCount (itemsOfDoc c1Doc).length :=
  C1_first_refresh_window c1Env c1St ("https://h/expire/99/x").data 99 c1Doc
    id 9 rfl rfl rfl rfl (by decide) (fun _ => rfl) rfl (fun _ => rfl)
    (by decide) (by decide) (by decide)

lemma segLoop_output_extends (env : Env) :
    ∀ (items : List Url) (st : CState) (c : Nat),
      ∃ tail, (segLoop env items st c).1.output = st.output ++ tail := by
  intro items
  induction items with
  | nil =>
    intro st c
    exact ⟨[], by simp [segLoop]⟩
  | cons a rest ih =>
    intro st c
    cases hfa : env.fetchSeg a with
    | error e => exact ⟨[], by simp [segLoop, hfa]⟩
    | ok buf =>
      by_cases htd : env.tdVis (c + 1) = true
      · exact ⟨[], by simp [segLoop, hfa, htd]⟩
      · obtain ⟨tl, htl⟩ := ih { st with output := st.output ++ [buf] } (c + 1)
        refine ⟨[buf] ++ tl, ?_⟩
        simp only [segLoop, hfa, htd, if_false]
        simpa [List.append_assoc] using htl

lemma segLoop_log_td (env : Env) :
    ∀ (items : List Url) (st : CState) (c : Nat), env.tdVis c = false →
      ((segLoop env items st c).2.1.all fun p => !env.tdVis p.1) = true := by
  intro items
  induction items with
  | nil =>
    intro st c _
    simp [segLoop]
  | cons a rest ih =>
    intro st c hc
    cases hfa : env.fetchSeg a with
    | error e => simp [segLoop, hfa, hc]
    | ok buf =>
      by_cases htd : env.tdVis (c + 1) = true
      · simp [segLoop, hfa, htd, hc]
      · have hc' : env.tdVis (c + 1) = false := by
          simpa using htd
        have hrest := ih { st with output := st.output ++ [buf] } (c + 1) hc'
        simp only [segLoop, hfa, hc', Bool.false_eq_true, if_false,
          List.all_cons, Bool.and_eq_true]
        exact ⟨by simp [hc], hrest⟩

lemma segLoop_abort_guard (env : Env) :
    ∀ (items : List Url) (st : CState) (c : Nat),
      (segLoop env items st c).2.2 = SegOut.abortedTd →
      (segLoop env items st c).1.isLoadingSegments = false := by
  intro items
  induction items with
  | nil =>
    intro st c h
    simp [segLoop] at h
  | cons a rest ih =>
    intro st c h
    cases hfa : env.fetchSeg a with
    | error e => simp [segLoop, hfa] at h
    | ok buf =>
      by_cases htd : env.tdVis (c + 1) = true
      · simp [segLoop, hfa, htd]
      · simp only [segLoop, hfa, htd, if_false] at h ⊢
        exact ih _ (c + 1) h

/-- C6: during the delivery loop, every segment fetch is issued at an await
count at which the teardown sentinel is still unset (the loop is entered
only after the step-5 sentinel check, modelled by the `tdVis c = false`
hypothesis, and re-checks the sentinel after each await, so once teardown
has occurred no further fetch is issued); if the loop aborts on teardown the
re-entrancy guard is cleared; and buffers already appended remain appended
— the original output is a prefix of the final output (no rollback). -/
theorem C6_teardown_mid_loop (env : Env) (items : List Url) (st : CState)
    (c : Nat) (hc : env.tdVis c = false) :
    ((segLoop env items st c).2.1.all fun p => !env.tdVis p.1) = true
    ∧ (segLoop env items st c).1.output.take st.output.length = st.output
    ∧ ((segLoop env items st c).2.2 = SegOut.abortedTd →
        (segLoop env items st c).1.isLoadingSegments = false) := by
  refine ⟨segLoop_log_td env items st c hc, ?_,
    segLoop_abort_guard env items st c⟩
  obtain ⟨tl, htl⟩ := segLoop_output_extends env items st c
  rw [htl, List.take_left]

/-- The environment of the C6 witness: teardown becomes visible after the
first await of the loop, i.e. during the first segment fetch. -/
def c6Env : Env :=
  ⟨fun _ => .error (), 0, fun _ => .error .transportError,
   fun v => .ok v, fun n => decide (1 ≤ n)⟩

/-- A mid-cycle state for the C6 witness (guard held, one buffer already
appended by an earlier cycle). -/
def c6St : CState := ⟨some "u".data, 0, none, true, 3, ["x".data], 0⟩

/-- Witness for C6: with teardown occurring during the first segment fetch,
that fetch is the only one issued (at a pre-teardown await count), the
original output survives untouched, and the abort clears the guard. -/
theorem C6_teardown_mid_loop_w :
    ((segLoop c6Env ["sq/1".data, "sq/2".data] c6St 0).2.1.all
        fun p => !c6Env.tdVis p.1) = true
    ∧ (segLoop c6Env ["sq/1".data, "sq/2".data] c6St 0).1.output.take
        c6St.output.length = c6St.output
    ∧ ((segLoop c6Env ["sq/1".data, "sq/2".data] c6St 0).2.2 =
          SegOut.abortedTd →
        (segLoop c6Env ["sq/1".data, "sq/2".data] c6St 0).1.isLoadingSegments
          = false) :=
  C6_teardown_mid_loop c6Env ["sq/1".data, "sq/2".data] c6St 0 rfl

/-- C7: invoking `loadSegments` while a refresh is already in progress emits
exactly one warning, performs no fetch calls (empty fetch log), and leaves
all other state — playlist source, Sequence Cursor, output — unchanged. -/
theorem C7_reentrancy (env : Env) (st : CState)
    (h : st.isLoadingSegments = true) :
    loadSegments env st =
      ({ st with warnings := st.warnings + 1 }, [], .warned) :=
  loadSegments_guarded env st h

/-- An environment for the C7 witness (never consulted). -/
def c7Env : Env :=
  ⟨fun _ => .ok [], 0, fun _ => .ok [], fun _ => .ok [], fun _ => false⟩

/-- A state with a refresh in progress for the C7 witness. -/
def c7St : CState := ⟨some "u".data, 5, some 4, true, 3, ["x".data], 0⟩

/-- Witness for C7 at a concrete in-progress state. -/
theorem C7_reentrancy_w :
    loadSegments c7Env c7St =
      ({ c7St with warnings := c7St.warnings + 1 }, [], .warned) :=
  C7_reentrancy c7Env c7St rfl

lemma segLoop_guard_of_not_aborted (env : Env) :
    ∀ (items : List Url) (st : CState) (c : Nat),
      (segLoop env items st c).2.2 ≠ SegOut.abortedTd →
      (segLoop env items st c).1.isLoadingSegments = st.isLoadingSegments := by
  intro items
  induction items with
  | nil =>
    intro st c _
    simp [segLoop]
  | cons a rest ih =>
    intro st c h
    cases hfa : env.fetchSeg a with
    | error e => simp [segLoop, hfa]
    | ok buf =>
      by_cases htd : env.tdVis (c + 1) = true
      · exact absurd (by simp [segLoop, hfa, htd]) h
      · have hc' : env.tdVis (c + 1) = false := by simpa using htd
        simp only [segLoop, hfa, hc', Bool.false_eq_true, if_false] at h ⊢
        exact ih _ (c + 1) h

lemma afterResolve_failed_guard (env : Env) (st : CState) (c : Nat)
    (st' : CState) (lg : List (Nat × Url)) (e : LoadErr)
    (h : afterResolve env st c = (st', lg, .failed e)) :
    st'.isLoadingSegments = st.isLoadingSegments := by
  unfold afterResolve at h
  simp only [] at h
  split at h
  · injection h with h1 h2
    rw [← h1]
  · rename_i xpl doc hpl
    split at h
    · simp at h
    · split at h
      · rename_i xs st2 lg2 hseg
        split at h
        · injection h with h1 h2
          rw [← h1]
          have hna : (segLoop env (keptItems st (itemsOfDoc doc)) st
              (c + 2)).2.2 ≠ SegOut.abortedTd := by
            rw [hseg]
            simp
          have hg := segLoop_guard_of_not_aborted env
            (keptItems st (itemsOfDoc doc)) st (c + 2) hna
          rw [hseg] at hg
          exact hg
        · simp at h
      · simp at h
      · rename_i xs st2 lg2 e2 hseg
        injection h with h1 h2
        rw [← h1]
        have hna : (segLoop env (keptItems st (itemsOfDoc doc)) st
            (c + 2)).2.2 ≠ SegOut.abortedTd := by
          rw [hseg]
          simp
        have hg := segLoop_guard_of_not_aborted env
          (keptItems st (itemsOfDoc doc)) st (c + 2) hna
        rw [hseg] at hg
        exact hg

/-- C10: when a refresh cycle throws after the refreshing flag has been set
(resolver rejection, missing expiry pattern, exhausted playlist-fetch or
segment-fetch retries, or missing sequence id), the flag is not cleared on
that error path, so every subsequent `loadSegments` invocation — under any
environment — takes the re-entrancy branch: it emits only the
overlapping-refresh warning and performs no fetches and no state change. -/
theorem C10_error_latches_guard (env envNext : Env) (st st' : CState)
    (lg : List (Nat × Url)) (e : LoadErr)
    (h : loadSegments env st = (st', lg, .failed e)) :
    st'.isLoadingSegments = true
    ∧ loadSegments envNext st' =
        ({ st' with warnings := st'.warnings + 1 }, [], .warned) := by
  have hg : st'.isLoadingSegments = true := by
    by_cases hb : st.isLoadingSegments = true
    · rw [loadSegments_guarded env st hb] at h
      simp at h
    · have hb' : st.isLoadingSegments = false := by simpa using hb
      unfold loadSegments at h
      rw [hb'] at h
      simp only [Bool.false_eq_true, if_false] at h
      split at h
      · split at h
        · injection h with h1 h2
          rw [← h1]
        · split at h
          · injection h with h1 h2
            rw [← h1]
          · exact afterResolve_failed_guard _ _ _ _ _ _ h
      · exact afterResolve_failed_guard _ _ _ _ _ _ h
  exact ⟨hg, loadSegments_guarded envNext st' hg⟩

/-- An environment whose resolver rejects, for the C10 witness. -/
def c10Env : Env :=
  ⟨fun _ => .error (), 0, fun _ => .error .transportError,
   fun _ => .error .transportError, fun _ => false⟩

/-- A fresh instance state for the C10 witness. -/
def c10St : CState := ⟨none, 0, none, false, 3, [], 0⟩

/-- Witness for C10: a first cycle whose resolver rejects leaves the guard
set, and the next invocation only warns. -/
theorem C10_error_latches_guard_w :
    (⟨none, 0, none, true, 3, [], 0⟩ : CState).isLoadingSegments = true
    ∧ loadSegments c10Env (⟨none, 0, none, true, 3, [], 0⟩ : CState) =
        ({ (⟨none, 0, none, true, 3, [], 0⟩ : CState) with
            warnings := (⟨none, 0, none, true, 3, [], 0⟩ : CState).warnings + 1 },
         [], .warned) :=
  C10_error_latches_guard c10Env c10Env c10St ⟨none, 0, none, true, 3, [], 0⟩
    [] .resolverFailed (by decide)

/-- Counterexample to C8 as stated: cacheDepth 0 is below 3 yet construction
succeeds — `arguments[1] || 3` replaces the falsy 0 with the default 3
before the `< 3` check runs. -/
theorem C8_counterexample :
    (0 : Int) < 3 ∧ ctorCacheDepthLib (some 0) = .ok 3
    ∧ ¬ ctorCacheDepthLib (some 0) = .error () := by
  refine ⟨by decide, by decide, by decide⟩

/-- C8 (amended): the current (lib) constructor fails with InvalidCacheDepth
exactly when the supplied cacheDepth is < 3 and not 0; a cacheDepth of 0,
being falsy, is replaced by the default 3 and accepted, exactly as an
unspecified cacheDepth is; 3 is the minimum accepted explicit value. The
older src-variant constructor (default parameter instead of `|| 3`) fails
exactly when the supplied cacheDepth is < 3. -/
theorem C8_cache_depth_validation :
    (∀ v : Int, ctorCacheDepthLib (some v) = .error () ↔ (v < 3 ∧ v ≠ 0))
    ∧ ctorCacheDepthLib none = .ok 3
    ∧ ctorCacheDepthLib (some 3) = .ok 3
    ∧ (∀ v : Int, ctorCacheDepthSrc (some v) = .error () ↔ v < 3)
    ∧ ctorCacheDepthSrc none = .ok 3
    ∧ ctorCacheDepthSrc (some 3) = .ok 3 := by
  refine ⟨?_, rfl, rfl, ?_, rfl, rfl⟩
  · intro v
    unfold ctorCacheDepthLib
    by_cases h0 : v = 0
    · subst h0
      simp
    · by_cases h3 : v < 3
      · simp [h0, h3]
      · simp [h0, h3]
  · intro v
    unfold ctorCacheDepthSrc
    by_cases h3 : v < 3 <;> simp [h3]

/-- Witness for C8 (amended) at the boundary values 2, 0 and 3. -/
theorem C8_cache_depth_validation_w :
    ctorCacheDepthLib (some 2) = .error ()
    ∧ ctorCacheDepthSrc (some 0) = .error () :=
  ⟨(C8_cache_depth_validation.1 2).mpr (by decide),
   ((C8_cache_depth_validation.2.2.2.1 0).mpr (by decide))⟩

end Ytls
